import Mathlib

/-!
Shallow embedding of the peer-to-peer book-review node
(`src/peer-2-peer-book-application/src/main.rs`) and proofs about its
data model, store operations, sync protocol and discovery handling.

Conventions of the embedding:
* the persisted collection (`books.json`) is a `List Book` threaded
  explicitly through the operations that read and rewrite it;
* store reads that can fail with an I/O or parse error are modelled with
  `Except String`, mirroring the `Result` plumbing of the source;
* command strings are parsed on `List Char`, mirroring `strip_prefix` and
  `split("|")`;
* wire payloads are modelled as structured JSON values (`Json`), and the
  serde decoding of `ListResponse` / `ListRequest` as structural decoders
  over those values.
-/

/-- The persisted book-review record (struct `Book` in the source). -/
structure Book where
  id : Nat
  title : String
  genre : String
  author : String
  rating : String
  review : String
  public : Bool
  deriving Repr, DecidableEq

/-- Request scope (enum `ListMode`): `ALL` peers, or `One` targeted peer id. -/
inductive ListMode where
  | ALL : ListMode
  | One : String → ListMode
  deriving Repr, DecidableEq

/-- A query for records (struct `ListRequest`). -/
structure ListRequest where
  mode : ListMode
  deriving Repr, DecidableEq

/-- An answer addressed to a requester via `receiver` (struct `ListResponse`). -/
structure ListResponse where
  mode : ListMode
  data : List Book
  receiver : String
  deriving Repr, DecidableEq

/-- One step of the Rust `Iterator::max_by_key(|r| r.id)`: keep the element with
the larger id, preferring the later element on ties. -/
def max_step (acc : Option Book) (b : Book) : Option Book :=
  match acc with
  | none => some b
  | some m => if m.id ≤ b.id then some b else some m

/-- The Rust `local_books.iter().max_by_key(|r| r.id)`: the element with the
largest id (the last such element on ties), `none` for an empty collection. -/
def max_by_id (books : List Book) : Option Book :=
  books.foldl max_step none

/-- The id assigned to a freshly created record in `create_new_book`:
max existing id plus one, or `0` for an empty collection. -/
def new_book_id (books : List Book) : Nat :=
  match max_by_id books with
  | some v => v.id + 1
  | none => 0

/-- The collection mutation performed by `create_new_book` (main.rs:142-167).
Note the source pushes `author: genre.to_owned()`, so the stored author is a
copy of the genre field; the embedding reproduces that faithfully. -/
def create_new_book (books : List Book)
    (title genre author rating review : String) : List Book :=
  books ++ [{ id := new_book_id books, title := title, genre := genre,
              author := genre, rating := rating, review := review,
              public := false }]

/-- The Rust `Iterator::position`: index of the first element satisfying the
predicate. -/
def position (p : Book → Bool) : List Book → Option Nat
  | [] => none
  | b :: bs => if p b then some 0 else (position p bs).map (· + 1)

/-- The operation of `delete_book_review` (main.rs:169-178) on an
already-read collection: remove the first record whose id matches, or fail
with the not-found error without touching the collection. -/
def delete_book_review (books : List Book) (id : Nat) :
    Except String (List Book) :=
  match position (fun book => book.id == id) books with
  | some index => .ok (books.eraseIdx index)
  | none => .error ("Book review not found")

/-- The collection mutation performed by `publish_book` (main.rs:182-190):
set `public := true` on every record whose id matches, leave the rest alone. -/
def publish_book (books : List Book) (id : Nat) : List Book :=
  books.map (fun r => if r.id == id then { r with public := true } else r)

/-- The whole `publish_book` operation including the store read: a failed
read propagates the store error; otherwise the updated collection is written
back and the operation succeeds whether or not any record matched the id. -/
def publish_book_op (store : Except String (List Book)) (id : Nat) :
    Except String (List Book) :=
  match store with
  | .error e => .error e
  | .ok books => .ok (publish_book books id)

/-- The Rust `str::strip_prefix` on character lists: the remainder after the
prefix when it is present, `none` otherwise. -/
def strip_prefix (pre s : List Char) : Option (List Char) :=
  if s.take pre.length = pre then some (s.drop pre.length) else none

/-- What `handle_create_book_review` (main.rs:326-342) does with one input
line: no action when the prefix is absent, a reported user error when fewer
than five pipe-delimited fields follow, otherwise a create. -/
inductive CreateOutcome where
  | notCreate : CreateOutcome
  | tooFewArguments : CreateOutcome
  | created : List Book → CreateOutcome
  deriving Repr, DecidableEq

/-- The `create review` command handler (main.rs:326-342): strip the literal
prefix, split the remainder on pipes, report a user error below five fields,
otherwise create a record from the first five fields. -/
def handle_create_book_review (books : List Book) (cmd : String) :
    CreateOutcome :=
  match strip_prefix ("create review".toList) cmd.toList with
  | none => .notCreate
  | some rest =>
    let elements := (rest.splitOn '|').map String.mk
    if elements.length < 5 then .tooFewArguments
    else
      match elements with
      | title :: genre :: author :: rating :: review :: _ =>
          .created (create_new_book books title genre author rating review)
      | _ => .tooFewArguments

/-- Structured JSON values; the wire payload after byte-level parsing. -/
inductive Json where
  | null : Json
  | bool : Bool → Json
  | num : Int → Json
  | str : String → Json
  | arr : List Json → Json
  | obj : List (String × Json) → Json

/-- First value bound to a key in a JSON object, as serde field lookup. -/
def jlookup (fields : List (String × Json)) (key : String) : Option Json :=
  (fields.find? (fun kv => kv.fst == key)).map (fun kv => kv.snd)

/-- Decode a JSON value as a non-negative integer field. -/
def decode_nat : Json → Option Nat
  | .num n => if 0 ≤ n then some n.toNat else none
  | _ => none

/-- Decode a JSON value as a string field. -/
def decode_string : Json → Option String
  | .str s => some s
  | _ => none

/-- Decode a JSON value as a boolean field. -/
def decode_bool : Json → Option Bool
  | .bool b => some b
  | _ => none

/-- The serde externally tagged decoding of `ListMode`: the unit variant `ALL`
is the bare string, the newtype variant `One` a single-entry object. -/
def decode_list_mode : Json → Option ListMode
  | .str s => if s = "ALL" then some .ALL else none
  | .obj [(key, value)] =>
      if key = "One" then (decode_string value).map ListMode.One else none
  | _ => none

/-- Structural decoding of a `Book` object: every field must be present and
well-typed; extra fields are ignored. -/
def decode_book : Json → Option Book
  | .obj fields => do
      let id ← jlookup fields ("id") >>= decode_nat
      let title ← jlookup fields ("title") >>= decode_string
      let genre ← jlookup fields ("genre") >>= decode_string
      let author ← jlookup fields ("author") >>= decode_string
      let rating ← jlookup fields ("rating") >>= decode_string
      let review ← jlookup fields ("review") >>= decode_string
      let pub ← jlookup fields ("public") >>= decode_bool
      pure { id := id, title := title, genre := genre, author := author,
             rating := rating, review := review, public := pub }
  | _ => none

/-- Decode a JSON array of `Book` objects. -/
def decode_books : Json → Option (List Book)
  | .arr xs => xs.mapM decode_book
  | _ => none

/-- `serde_json::from_slice::<ListRequest>` at the structural level. -/
def decode_list_request : Json → Option ListRequest
  | .obj fields =>
      (jlookup fields ("mode") >>= decode_list_mode).map ListRequest.mk
  | _ => none

/-- `serde_json::from_slice::<ListResponse>` at the structural level. -/
def decode_list_response : Json → Option ListResponse
  | .obj fields => do
      let mode ← jlookup fields ("mode") >>= decode_list_mode
      let data ← jlookup fields ("data") >>= decode_books
      let receiver ← jlookup fields ("receiver") >>= decode_string
      pure { mode := mode, data := data, receiver := receiver }
  | _ => none

/-- The externally visible effect of handling one inbound floodsub message:
surface the records of a response to the operator, schedule a response for
publication, or do nothing. -/
inductive MsgAction where
  | display : List Book → MsgAction
  | respond : ListResponse → MsgAction
  | ignore : MsgAction
  deriving Repr, DecidableEq

/-- The response built by `respond_with_public_books` (main.rs:105-121) from
a successfully read collection: only the `public` records, addressed to the
given receiver, mode fixed to `ALL`. -/
def respond_with_public_books (books : List Book) (receiver : String) :
    ListResponse :=
  { mode := ListMode.ALL, receiver := receiver,
    data := books.filter (fun r => r.public) }

/-- Handling of a decoded `ListRequest` inside `inject_event`
(main.rs:80-97): answer an `ALL` request always, a `One` request only when it
targets the id of this node itself; the scheduled answer is built by
`respond_with_public_books` from the local collection of this node, addressed to the
message source. -/
def handle_request (myId : String) (books : List Book) (source : String)
    (req : ListRequest) : MsgAction :=
  match req.mode with
  | .ALL => .respond (respond_with_public_books books source)
  | .One peer_id =>
      if peer_id = myId then .respond (respond_with_public_books books source)
      else .ignore

/-- `inject_event` for a `FloodsubEvent::Message` (main.rs:70-103): try to
decode the payload as a `ListResponse` first, displaying it only when
addressed to this node; only if that decode fails, try `ListRequest`; if
both fail, do nothing. -/
def handle_message (myId : String) (books : List Book) (source : String)
    (payload : Json) : MsgAction :=
  match decode_list_response payload with
  | some resp =>
      if resp.receiver = myId then .display resp.data else .ignore
  | none =>
    match decode_list_request payload with
    | some req => handle_request myId books source req
    | none => .ignore

/-- The state `inject_event` for `MdnsEvent` sees: the remaining live
advertisements of the discovery component (pairs of peer id and address), and the
floodsub broadcast forwarding set. -/
structure BookBehaviourView where
  mdns_live : List (String × String)
  floodsub_peers : List String
  deriving Repr, DecidableEq

/-- `Mdns::has_node`: whether any live advertisement for the peer remains. -/
def has_node (live : List (String × String)) (peer : String) : Bool :=
  live.any (fun pa => pa.fst == peer)

/-- `Floodsub::remove_node_from_partial_view`: drop the peer from the
broadcast forwarding set. -/
def remove_node_from_view (peers : List String) (peer : String) :
    List String :=
  peers.filter (fun p => p != peer)

/-- `inject_event` for `MdnsEvent::Expired` (main.rs:131-137): for each
expired advertisement, remove the peer from the forwarding set only when the
discovery component no longer has any live advertisement for it. -/
def handle_expired (st : BookBehaviourView)
    (expired : List (String × String)) : BookBehaviourView :=
  expired.foldl
    (fun s pa =>
      if has_node s.mdns_live pa.fst then s
      else { s with
              floodsub_peers := remove_node_from_view s.floodsub_peers pa.fst })
    st

/-- A concrete private record used in witnesses. -/
def bkA : Book :=
  { id := 0, title := "t0", genre := "g0", author := "a0", rating := "r0",
    review := "v0", public := false }

/-- A concrete public record used in witnesses. -/
def bkB : Book :=
  { id := 1, title := "t1", genre := "g1", author := "a1", rating := "r1",
    review := "v1", public := true }

theorem foldl_max_step (books : List Book) (m0 : Book) :
    ∃ m, books.foldl max_step (some m0) = some m ∧ (m = m0 ∨ m ∈ books) ∧
      m0.id ≤ m.id ∧ ∀ b ∈ books, b.id ≤ m.id := by
  induction books generalizing m0 with
  | nil => exact ⟨m0, rfl, Or.inl rfl, le_refl _, by simp⟩
  | cons b bs ih =>
    simp only [List.foldl_cons]
    by_cases hle : m0.id ≤ b.id
    · obtain ⟨m, hm, hmem, hle2, hall⟩ := ih b
      refine ⟨m, ?_, ?_, le_trans hle hle2, ?_⟩
      · simpa [max_step, hle] using hm
      · rcases hmem with h | h
        · exact Or.inr (by simp [h])
        · exact Or.inr (by simp [h])
      · intro x hx
        rcases List.mem_cons.mp hx with h | h
        · exact h ▸ hle2
        · exact hall x h
    · obtain ⟨m, hm, hmem, hle2, hall⟩ := ih m0
      refine ⟨m, ?_, ?_, hle2, ?_⟩
      · simpa [max_step, hle] using hm
      · rcases hmem with h | h
        · exact Or.inl h
        · exact Or.inr (List.mem_cons_of_mem _ h)
      · intro x hx
        rcases List.mem_cons.mp hx with h | h
        · exact h ▸ le_trans (le_of_not_le hle) hle2
        · exact hall x h

theorem max_by_id_spec (b : Book) (bs : List Book) :
    ∃ m, max_by_id (b :: bs) = some m ∧ m ∈ b :: bs ∧
      ∀ x ∈ b :: bs, x.id ≤ m.id := by
  obtain ⟨m, hm, hmem, hle, hall⟩ := foldl_max_step bs b
  refine ⟨m, ?_, ?_, ?_⟩
  · simpa [max_by_id, max_step] using hm
  · rcases hmem with h | h
    · exact h ▸ List.mem_cons_self _ _
    · exact List.mem_cons_of_mem _ h
  · intro x hx
    rcases List.mem_cons.mp hx with h | h
    · exact h ▸ hle
    · exact hall x h

theorem position_eq_none (id : Nat) (books : List Book)
    (h : ∀ b ∈ books, b.id ≠ id) :
    position (fun book => book.id == id) books = none := by
  induction books with
  | nil => rfl
  | cons b bs ih =>
    have hb : (b.id == id) = false := by
      simp [h b (List.mem_cons_self _ _)]
    simp [position, hb, ih (fun x hx => h x (List.mem_cons_of_mem _ hx))]

theorem delete_absent (id : Nat) (books : List Book)
    (h : ∀ b ∈ books, b.id ≠ id) :
    delete_book_review books id = .error ("Book review not found") := by
  simp [delete_book_review, position_eq_none id books h]

theorem delete_present (id : Nat) :
    ∀ (books : List Book), (books.map Book.id).Nodup →
      ∀ b0 ∈ books, b0.id = id →
        delete_book_review books id =
          .ok (books.filter (fun b => b.id != id)) := by
  intro books
  induction books with
  | nil =>
    intro _ b0 hb0
    cases hb0
  | cons b bs ih =>
    intro hnd b0 hb0 hid
    have hcons : b.id ∉ bs.map Book.id ∧ (bs.map Book.id).Nodup :=
      List.nodup_cons.mp (List.map_cons Book.id b bs ▸ hnd)
    rcases List.mem_cons.mp hb0 with h | h
    · have hbid : b.id = id := by rw [← h]; exact hid
      have hfix : bs.filter (fun x => x.id != id) = bs := by
        refine List.filter_eq_self.mpr ?_
        intro x hx
        simp only [bne_iff_ne, ne_eq]
        intro hEq
        exact (hbid ▸ hcons.1) (hEq ▸ List.mem_map_of_mem Book.id hx)
      simp [delete_book_review, position, hbid, hfix, List.filter_cons]
    · have hmem : id ∈ bs.map Book.id := hid ▸ List.mem_map_of_mem Book.id h
      have hbne : b.id ≠ id := fun hEq => hcons.1 (hEq ▸ hmem)
      have hIH := ih hcons.2 b0 h hid
      cases hpos : position (fun bk => bk.id == id) bs with
      | none =>
        rw [delete_book_review, hpos] at hIH
        cases hIH
      | some i =>
        rw [delete_book_review, hpos] at hIH
        have herase := Except.ok.inj hIH
        simp [delete_book_review, position, hbne, hpos, List.eraseIdx,
              herase, List.filter_cons]

theorem handle_expired_nil (st : BookBehaviourView) :
    handle_expired st [] = st := rfl

theorem handle_expired_cons (st : BookBehaviourView) (pa : String × String)
    (rest : List (String × String)) :
    handle_expired st (pa :: rest) =
      handle_expired
        (if has_node st.mdns_live pa.fst then st
         else { st with
                 floodsub_peers :=
                   remove_node_from_view st.floodsub_peers pa.fst })
        rest := by
  simp only [handle_expired, List.foldl_cons]

theorem handle_expired_mdns (expired : List (String × String)) :
    ∀ st : BookBehaviourView,
      (handle_expired st expired).mdns_live = st.mdns_live := by
  induction expired with
  | nil => intro st; rfl
  | cons pa rest ih =>
    intro st
    rw [handle_expired_cons]
    split
    · exact ih st
    · exact ih _

theorem handle_expired_subset (expired : List (String × String)) :
    ∀ (st : BookBehaviourView) (p : String),
      p ∈ (handle_expired st expired).floodsub_peers →
        p ∈ st.floodsub_peers := by
  induction expired with
  | nil => intro st p hp; exact hp
  | cons pa rest ih =>
    intro st p hp
    rw [handle_expired_cons] at hp
    split at hp
    · exact ih st p hp
    · have := ih _ p hp
      simp only [remove_node_from_view, List.mem_filter] at this
      exact this.1

theorem publish_book_absent (books : List Book) (id : Nat)
    (h : ∀ b ∈ books, b.id ≠ id) : publish_book books id = books := by
  induction books with
  | nil => rfl
  | cons b bs ih =>
    have hb : (b.id == id) = false := by
      simp [h b (List.mem_cons_self _ _)]
    have ht := ih (fun x hx => h x (List.mem_cons_of_mem _ hx))
    rw [show publish_book (b :: bs) id =
          (if b.id == id then { b with public := true } else b) ::
            publish_book bs id from rfl,
        ht, hb]
    simp

/-- C1: evaluation of the create handler at the concrete scenario of the claim.
Starting from an empty collection, the input line
`create review T|G|A|R|Rv` yields a record with `id = 0`, `public = false`,
genre `"G"`, rating `"R"`, review `"Rv"`, but its title is `" T"` (the
remainder after `strip_prefix("create review")` is not trimmed, so the
space before the first field stays in the title) and its author is `"G"`
(main.rs:152 pushes `author: genre.to_owned()`), not the third pipe field
`"A"`. -/
theorem create_review_concrete_eval :
    handle_create_book_review [] ("create review T|G|A|R|Rv") =
      .created [{ id := 0, title := " T", genre := "G", author := "G",
                  rating := "R", review := "Rv", public := false }] := by
  decide

/-- C2 counterexample: publishing the absent id `5` on the one-record
collection `[bkA]` (whose only id is `0`) succeeds outright: the result is
a plain `.ok` with the collection unchanged, indistinguishable from any
other successful publish, so no not-found condition is reported at all. -/
theorem publish_missing_id_counterexample :
    publish_book_op (.ok [bkA]) 5 = .ok [bkA] := rfl

/-- C2 (amended): when `publish review <id>` references an id absent from a
successfully read collection, the collection is left unchanged, but the
operation is a silent success: it returns `.ok`, and no not-found error
distinct from a store I/O failure is ever produced (only the store read
itself can yield an error). -/
theorem publish_missing_id_silent_noop (books : List Book) (id : Nat)
    (h : ∀ b ∈ books, b.id ≠ id) :
    publish_book_op (.ok books) id = .ok books := by
  simp only [publish_book_op, publish_book_absent books id h]

/-- Witness for the C2 amended theorem at a concrete input. -/
theorem publish_missing_id_silent_noop_witness :
    (∀ b ∈ [bkA], b.id ≠ 5) ∧ publish_book_op (.ok [bkA]) 5 = .ok [bkA] :=
  ⟨by decide, publish_missing_id_silent_noop [bkA] 5 (by decide)⟩

/-- C6: a create appends exactly one new record whose `public` is `false`
and whose id is `new_book_id books`; on an empty collection that id is `0`,
and on a non-empty collection it is one more than the id of a maximal
record of the collection. -/
theorem create_id_max_plus_one (books : List Book) (t g a r v : String) :
    (∃ nb, create_new_book books t g a r v = books ++ [nb] ∧
        nb.public = false ∧ nb.id = new_book_id books) ∧
    (books = [] → new_book_id books = 0) ∧
    (books ≠ [] → ∃ m ∈ books, (∀ b ∈ books, b.id ≤ m.id) ∧
        new_book_id books = m.id + 1) := by
  refine ⟨⟨_, rfl, rfl, rfl⟩, ?_, ?_⟩
  · intro h
    subst h
    rfl
  · intro h
    cases books with
    | nil => exact absurd rfl h
    | cons b bs =>
      obtain ⟨m, hm, hmem, hall⟩ := max_by_id_spec b bs
      exact ⟨m, hmem, hall, by simp [new_book_id, hm]⟩

/-- Witness for C6 at a concrete non-empty collection. -/
theorem create_id_max_plus_one_witness :
    ([bkA, bkB] ≠ ([] : List Book)) ∧
      ∃ m ∈ [bkA, bkB], (∀ b ∈ [bkA, bkB], b.id ≤ m.id) ∧
        new_book_id [bkA, bkB] = m.id + 1 :=
  ⟨by decide,
   (create_id_max_plus_one [bkA, bkB] ("t") ("g") ("a") ("r") ("v")).2.2
     (by decide)⟩

/-- C7: deleting an id absent from the collection fails with the not-found
error (and the source performs no write-back on that path, so the stored
collection is untouched); under the data-model invariant that ids are
unique within one collection, deleting a present id removes exactly the
record with that id and no other. -/
theorem delete_review_spec (books : List Book) (id : Nat) :
    ((∀ b ∈ books, b.id ≠ id) →
        delete_book_review books id = .error ("Book review not found")) ∧
    ((books.map Book.id).Nodup → ∀ b0 ∈ books, b0.id = id →
        delete_book_review books id =
          .ok (books.filter (fun b => b.id != id))) :=
  ⟨delete_absent id books,
   fun hnd b0 hb0 hid => delete_present id books hnd b0 hb0 hid⟩

/-- Witness for C7: a not-found delete and a successful delete at concrete
inputs. -/
theorem delete_review_spec_witness :
    delete_book_review [bkA] 5 = .error ("Book review not found") ∧
      delete_book_review [bkA, bkB] 1 = .ok [bkA] :=
  ⟨(delete_review_spec [bkA] 5).1 (by decide),
   Eq.trans
     ((delete_review_spec [bkA, bkB] 1).2 (by decide) bkB (by decide)
      (by decide))
     rfl⟩

/-- C8: publishing id `idv` preserves the length of the collection and maps
the record at each position to itself, with only `public` forced to `true`
when its id is `idv`; every other record, and every other field of the
matching record, is unchanged. -/
theorem publish_frame_effect (books : List Book) (idv i : Nat) (old : Book)
    (h : books[i]? = some old) :
    (publish_book books idv).length = books.length ∧
    (publish_book books idv)[i]? =
      some (if old.id = idv then { old with public := true } else old) := by
  constructor
  · simp [publish_book]
  · by_cases hid : old.id = idv <;>
      simp [publish_book, h, hid]

/-- Witness for C8 at a concrete collection and position. -/
theorem publish_frame_effect_witness :
    ([bkA, bkB][0]? = some bkA) ∧
      ((publish_book [bkA, bkB] 0).length = [bkA, bkB].length ∧
        (publish_book [bkA, bkB] 0)[0]? =
          some (if bkA.id = 0 then { bkA with public := true } else bkA)) :=
  ⟨by decide, publish_frame_effect [bkA, bkB] 0 0 bkA (by decide)⟩

/-- C3: a decoded `ListRequest` is answered exactly when its mode is `ALL`
or is `One` naming the identity of this node itself, and every scheduled
answer carries exactly the `public` records of this node, addressed to the requester. -/
theorem request_answered_iff_addressed (myId : String) (books : List Book)
    (source : String) (req : ListRequest) :
    ((∃ resp, handle_request myId books source req = .respond resp) ↔
        req.mode = .ALL ∨ req.mode = .One myId) ∧
    (∀ resp, handle_request myId books source req = .respond resp →
        resp.data = books.filter (fun r => r.public) ∧
        resp.receiver = source) := by
  obtain ⟨mode⟩ := req
  cases mode with
  | ALL =>
    refine ⟨⟨fun _ => Or.inl rfl, fun _ => ⟨_, rfl⟩⟩, ?_⟩
    intro resp h
    injection h with h2
    rw [← h2]
    exact ⟨rfl, rfl⟩
  | One pid =>
    by_cases hp : pid = myId
    · refine ⟨by simp [handle_request, hp], ?_⟩
      intro resp h
      simp only [handle_request, hp, if_pos] at h
      injection h with h2
      rw [← h2]
      exact ⟨rfl, rfl⟩
    · refine ⟨by simp [handle_request, hp], ?_⟩
      intro resp h
      simp [handle_request, hp] at h

/-- Witness for C3: an `ALL` request at a concrete collection is answered
with exactly the public records, addressed to the message source. -/
theorem request_answered_iff_addressed_witness :
    (respond_with_public_books [bkA, bkB] ("src")).data =
        [bkA, bkB].filter (fun r => r.public) ∧
      (respond_with_public_books [bkA, bkB] ("src")).receiver = "src" :=
  (request_answered_iff_addressed ("me") [bkA, bkB] ("src") ⟨.ALL⟩).2
    (respond_with_public_books [bkA, bkB] ("src")) rfl

/-- C4: an inbound payload is first tried as a `ListResponse`: whenever that
decode succeeds, the message is handled as a response (even if it would also
decode as a request); the `ListRequest` decode is consulted only when the
response decode fails; and when both decodes fail, the payload is dropped
with no action and no state change. -/
theorem decode_response_first (myId : String) (books : List Book)
    (source : String) (payload : Json) :
    (∀ resp, decode_list_response payload = some resp →
        handle_message myId books source payload =
          if resp.receiver = myId then .display resp.data else .ignore) ∧
    (decode_list_response payload = none →
        ∀ req, decode_list_request payload = some req →
          handle_message myId books source payload =
            handle_request myId books source req) ∧
    (decode_list_response payload = none →
        decode_list_request payload = none →
          handle_message myId books source payload = .ignore) := by
  refine ⟨?_, ?_, ?_⟩
  · intro resp h
    simp [handle_message, h]
  · intro hn req h
    simp [handle_message, hn, h]
  · intro hn hn2
    simp [handle_message, hn, hn2]

/-- A concrete wire payload that decodes both as a `ListResponse` and (having
a `mode` field) as a `ListRequest`; used to witness the decode priority. -/
def sample_response_payload : Json :=
  .obj [("mode", .str ("ALL")), ("data", .arr []),
        ("receiver", .str ("me"))]

/-- Witness for C4: the ambiguous payload above is handled as a response
(here ignored, being addressed to another peer) even though it also decodes
as a request, and an undecodable payload yields no action. -/
theorem decode_response_first_witness :
    decode_list_request sample_response_payload =
        some (ListRequest.mk ListMode.ALL) ∧
      (handle_message ("me2") [] ("src") sample_response_payload =
        if (ListResponse.mk ListMode.ALL [] ("me")).receiver = "me2"
        then .display (ListResponse.mk ListMode.ALL [] ("me")).data
        else .ignore) ∧
      handle_message ("me2") [] ("src") Json.null = .ignore :=
  ⟨by decide,
   (decode_response_first ("me2") [] ("src") sample_response_payload).1
     (ListResponse.mk ListMode.ALL [] ("me")) (by decide),
   (decode_response_first ("me2") [] ("src") Json.null).2.2 rfl rfl⟩

/-- C5: a decoded `ListResponse` is surfaced to the operator precisely when
its `receiver` is the identity of this node; a response addressed to any other
receiver is discarded without surfacing its data. -/
theorem response_surfaced_iff_receiver (myId : String) (books : List Book)
    (source : String) (payload : Json) (resp : ListResponse)
    (h : decode_list_response payload = some resp) :
    (resp.receiver = myId →
        handle_message myId books source payload = .display resp.data) ∧
    (resp.receiver ≠ myId →
        handle_message myId books source payload = .ignore) := by
  constructor
  · intro hr
    simp [handle_message, h, hr]
  · intro hr
    simp [handle_message, h, hr]

/-- Witness for C5: the concrete payload addressed to `"me"` is displayed by
the node with identity `"me"`. -/
theorem response_surfaced_iff_receiver_witness :
    (ListResponse.mk ListMode.ALL [] ("me")).receiver = "me" ∧
      handle_message ("me") [] ("src") sample_response_payload =
        .display (ListResponse.mk ListMode.ALL [] ("me")).data :=
  ⟨rfl,
   (response_surfaced_iff_receiver ("me") [] ("src")
      sample_response_payload (ListResponse.mk ListMode.ALL [] ("me"))
      (by decide)).1 rfl⟩

/-- C10: every response this node constructs carries `mode = ALL` — the
mode of the incoming request is never echoed into the response, including when a
`One`-targeted request is being answered. -/
theorem response_mode_always_all (myId : String) (books : List Book)
    (source : String) (req : ListRequest) (resp : ListResponse)
    (h : handle_request myId books source req = .respond resp) :
    resp.mode = ListMode.ALL := by
  obtain ⟨mode⟩ := req
  cases mode with
  | ALL =>
    injection h with h2
    rw [← h2]
    rfl
  | One pid =>
    by_cases hp : pid = myId
    · simp only [handle_request, hp, if_pos] at h
      injection h with h2
      rw [← h2]
      rfl
    · simp [handle_request, hp] at h

/-- Witness for C10: the answer to a targeted request naming this node
still has mode `ALL`. -/
theorem response_mode_always_all_witness :
    (respond_with_public_books [bkB] ("src")).mode = ListMode.ALL :=
  response_mode_always_all ("me") [bkB] ("src") ⟨.One ("me")⟩
    (respond_with_public_books [bkB] ("src")) (by decide)

theorem expired_keeps_live (expired : List (String × String)) :
    ∀ (st : BookBehaviourView) (peer : String),
      has_node st.mdns_live peer = true → peer ∈ st.floodsub_peers →
        peer ∈ (handle_expired st expired).floodsub_peers := by
  induction expired with
  | nil =>
    intro st peer _ hp
    exact hp
  | cons pa rest ih =>
    intro st peer hn hp
    rw [handle_expired_cons]
    by_cases hpa : has_node st.mdns_live pa.fst = true
    · rw [if_pos hpa]
      exact ih st peer hn hp
    · rw [if_neg hpa]
      have hne : peer ≠ pa.fst := by
        intro hEq
        rw [hEq] at hn
        exact hpa hn
      refine ih _ peer hn ?_
      simp [remove_node_from_view, List.mem_filter, hp, hne]

theorem expired_removes_gone (expired : List (String × String)) :
    ∀ (st : BookBehaviourView) (peer : String),
      has_node st.mdns_live peer = false →
        (∃ addr, (peer, addr) ∈ expired) →
          peer ∉ (handle_expired st expired).floodsub_peers := by
  induction expired with
  | nil =>
    rintro st peer _ ⟨addr, h⟩
    cases h
  | cons pa rest ih =>
    rintro st peer hn ⟨addr, hmem⟩
    rw [handle_expired_cons]
    rcases List.mem_cons.mp hmem with h | h
    · have hfst : pa.fst = peer := by rw [← h]
      rw [if_neg (by rw [hfst]; simp [hn])]
      intro habs
      have := handle_expired_subset rest _ peer habs
      simp only [remove_node_from_view, List.mem_filter, hfst] at this
      exact (by simpa using this.2 : peer ≠ peer) rfl
    · by_cases hpa : has_node st.mdns_live pa.fst = true
      · rw [if_pos hpa]
        exact ih st peer hn ⟨addr, h⟩
      · rw [if_neg hpa]
        exact ih _ peer hn ⟨addr, h⟩

/-- C9: processing a batch of `Expired` discovery events removes a peer
from the broadcast forwarding set only when no live advertisement for it
remains in the discovery state; a peer with at least one advertisement
still live stays in the forwarding set, and a fully departed peer named in
the batch ends up outside it. -/
theorem expired_removal_policy (st : BookBehaviourView)
    (expired : List (String × String)) (peer : String) :
    (has_node st.mdns_live peer = true → peer ∈ st.floodsub_peers →
        peer ∈ (handle_expired st expired).floodsub_peers) ∧
    (has_node st.mdns_live peer = false →
        (∃ addr, (peer, addr) ∈ expired) →
          peer ∉ (handle_expired st expired).floodsub_peers) :=
  ⟨expired_keeps_live expired st peer, expired_removes_gone expired st peer⟩

/-- A concrete discovery view for the C9 witness: peer `p` still has one
live advertisement, peer `q` has none; both are in the forwarding set. -/
def stW : BookBehaviourView :=
  { mdns_live := [("p", "a2")], floodsub_peers := ["p", "q"] }

/-- Witness for C9: after expiry events for both peers, `p` (one live
advertisement left) stays in the forwarding set and `q` (fully gone) is
removed. -/
theorem expired_removal_policy_witness :
    ("p" ∈ (handle_expired stW [("p", "a1"), ("q", "a0")]).floodsub_peers) ∧
      ("q" ∉ (handle_expired stW [("p", "a1"), ("q", "a0")]).floodsub_peers) :=
  ⟨(expired_removal_policy stW [("p", "a1"), ("q", "a0")] ("p")).1
      (by decide) (by decide),
   (expired_removal_policy stW [("p", "a1"), ("q", "a0")] ("q")).2
      (by decide) ⟨("a0"), by decide⟩⟩
